import Mathlib

/-!
Verification of the broadcast chat relay (`ChatServer` in `src/ws/main.py`)
against its natural-language specification.

The relay keeps a mutable set of live websocket connections
(`self.clients : Set[WebSocketServerProtocol]`).  Its `handler` coroutine is,
verbatim:

    self.clients.add(websocket)
    try:
        async for message in websocket:
            for client in self.clients:
                if client.open:
                    if client == websocket:
                        await client.send("You: " + message)
                    else:
                        await client.send(message)
    except websockets.ConnectionClosed:
        pass
    finally:
        self.clients.remove(websocket)

The shallow embedding below models:
  * connections as opaque identities (`Conn`);
  * the Python `set` operations used by the handler (`set_add` is
    `set.add`, which is a silent no-op on duplicates; `set_remove` is
    `set.remove`, which raises `KeyError` when the element is absent);
  * the registry as a duplicate-free list, i.e. a set with its (arbitrary
    but fixed) iteration order made explicit;
  * the inner fan-out loop, twice, at two levels of detail:
      - `broadcastLoop`: the loop under purely sequential execution (no
        other handler task runs during the `await client.send` suspension
        points).  The per-broadcast environment is a pair of predicates:
        `o c` is `c.open`, and `f c` tells whether `await c.send`
        raises `websockets.ConnectionClosed`.  The loop body contains no
        try/except, so a raised send error propagates and aborts the loop;
        the boolean in the result records that the exception escaped.
      - `fanoutSteps`: the same loop with the CPython set-iterator protocol
        explicit, so that registry mutations performed by *other* handler
        tasks during an `await` suspension can be interleaved.  the CPython
        set iterator compares the current size of the set with the size recorded
        at iterator creation on *every* advance (including the final,
        exhausting one) and raises `RuntimeError: Set changed size during
        iteration` on a mismatch;
  * the whole handler as a transition system (`step` / `runTrace`) over
    traces of connect / message / disconnect events, with ghost logs
    recording each call of `set.add` (registration) and `set.remove`
    (deregistration) made by a handler.
-/

/-- A live connection: an opaque identity, as used for `set` membership and
the `client == websocket` comparison (both are identity-based for
`WebSocketServerProtocol`). -/
structure Conn where
  id : Nat
deriving DecidableEq

/-- Python `set.add`: inserting an element already present is a silent
no-op; there is no error path (the operation is total). -/
def set_add (s : List Conn) (c : Conn) : List Conn :=
  if c ∈ s then s else s ++ [c]

/-- Python `set.remove`: removes the element if present, raises `KeyError`
(modelled as `Except.error ()`) if absent. -/
def set_remove (s : List Conn) (c : Conn) : Except Unit (List Conn) :=
  if c ∈ s then Except.ok (s.erase c) else Except.error ()

/-- The inner fan-out loop of `handler` (the `for client in self.clients:`
block), under sequential execution: no other task touches the registry
while this loop runs, so iterating the live set is iterating the list `cs`
of its current elements.  `o c` is the `client.open` flag at fan-out time;
`f c` holds when `await client.send` raises `ConnectionClosed`.

Result: the list of successful deliveries `(client, payload)` in loop
order, and a boolean that is `true` when a send raised — the loop body has
no try/except, so the exception aborts the loop at that point and escapes
the whole `async for` block. -/
def broadcastLoop (o f : Conn → Bool) (sender : Conn) (msg : String) :
    List Conn → List (Conn × String) × Bool
  | [] => ([], false)
  | c :: rest =>
    if o c then
      if f c then ([], true)
      else
        let r := broadcastLoop o f sender msg rest
        ((c, if c = sender then "You: " ++ msg else msg) :: r.1, r.2)
    else broadcastLoop o f sender msg rest

/-- The payloads delivered to connection `x` by a fan-out, in order. -/
def deliveredTo (ds : List (Conn × String)) (x : Conn) : List String :=
  (ds.filter (fun p => decide (p.1 = x))).map (fun p => p.2)

/-- The registry as seen by the interleaved fan-out model: the live list of
set elements in iteration order. -/
abbrev Hub := List Conn

/-- Exceptions that can abort the fan-out loop: `RuntimeError` from the set
iterator when the set changed size during iteration, and
`websockets.ConnectionClosed` from `await client.send`. -/
inductive PyErr where
  | runtimeError
  | connectionClosed
deriving DecidableEq

/-- A registry mutation performed by ANOTHER handler task while the fan-out
is suspended at an `await`: `creg c` is that task running
`self.clients.add(c)` (its registration), `cdereg c` is its `finally`
block running `self.clients.remove(c)` (its deregistration; modelled as
erasure — the `KeyError` of an absent element would be raised in that other
task, outside the fan-out under study). -/
inductive ConcOp where
  | creg (c : Conn)
  | cdereg (c : Conn)

/-- Effect of a concurrent registry operation on the live set. -/
def applyOp (h : Hub) : ConcOp → Hub
  | ConcOp.creg c => set_add h c
  | ConcOp.cdereg c => h.erase c

/-- The fan-out loop with the CPython set-iterator protocol made explicit, so
that concurrent registry mutations can interleave.  `iterSize` is the size
of `self.clients` recorded when `for client in self.clients:` created the
iterator; `remaining` is the part of the enumeration not yet visited; `h`
is the CURRENT live set.  Every iterator advance — one per loop step, plus
the final exhausting one — first compares the live size with `iterSize`
and raises `RuntimeError` on a mismatch, exactly as the CPython
`setiter_iternext` does.  `sched` gives, per `await client.send`
suspension, the list of registry mutations other tasks perform during that
await (an empty list meaning no interleaving; a skipped, non-open client
involves no `await`, hence consumes no slot).  A `ConnectionClosed` raised
by a send aborts the loop at that point, after the mutations of that
slot of that await have applied.

Result: the live set when the loop ends, the successful deliveries, and
the exception (if any) that aborted the loop. -/
def fanoutSteps (o f : Conn → Bool) (sender : Conn) (msg : String) (iterSize : Nat) :
    List Conn → Hub → List (List ConcOp) → Hub × List (Conn × String) × Option PyErr
  | [], h, _ =>
    if h.length = iterSize then (h, [], none)
    else (h, [], some PyErr.runtimeError)
  | c :: rest, h, sched =>
    if h.length = iterSize then
      if o c then
        if f c then ((sched.headD []).foldl applyOp h, [], some PyErr.connectionClosed)
        else
          let h' := (sched.headD []).foldl applyOp h
          let r := fanoutSteps o f sender msg iterSize rest h' sched.tail
          (r.1, (c, if c = sender then "You: " ++ msg else msg) :: r.2.1, r.2.2)
      else fanoutSteps o f sender msg iterSize rest h sched
    else (h, [], some PyErr.runtimeError)

/-- One full execution of `for client in self.clients:` starting from live
set `h`: the iterator is created over the current elements with the current
size recorded, then the loop runs under interleaving schedule `sched`. -/
def fanoutRun (o f : Conn → Bool) (sender : Conn) (msg : String) (h : Hub)
    (sched : List (List ConcOp)) : Hub × List (Conn × String) × Option PyErr :=
  fanoutSteps o f sender msg h.length h h sched

/-- Global server state, plus ghost instrumentation.  `clients` is
`self.clients` (a set, kept as a duplicate-free list in iteration order);
`log` accumulates all successful deliveries; `regLog` and `deregLog` are
ghost logs recording, in order, every call of `self.clients.add`
(registration) and every completed call of `self.clients.remove`
(deregistration) made by the handlers.  The ghost logs do not influence
any transition. -/
structure ServerState where
  clients : List Conn
  log : List (Conn × String)
  regLog : List Conn
  deregLog : List Conn

/-- The state of a freshly started server: `self.clients = set()`. -/
def initState : ServerState := ⟨[], [], [], []⟩

/-- Why the receive loop of a connection terminated: a graceful close or a
transport error.  Either way `async for` ends by raising
`ConnectionClosed` (caught by the `except`) or by normal exhaustion, and
the `finally` block runs unconditionally, so the `step` transition below
does not depend on the reason. -/
inductive Reason where
  | graceful
  | error

/-- One observable action of one handler task, with the others idle (the
interleaved fan-out of `fanoutSteps` refines the `msg` case):
 * `connect c` — the transport hands a new connection to `handler`, which
   runs `self.clients.add(websocket)`;
 * `msg c m o f` — `async for` yields message `m` on `c`, and the fan-out
   loop runs with open-flags `o` and send-failures `f`; if a send raises
   `ConnectionClosed`, the exception escapes the `async for`, is caught by
   the `except`, and the `finally` runs `self.clients.remove(c)`: the
   lifecycle of the sender ends;
 * `disconnect c r` — the stream of `c` terminates (reason `r`) and its
   handler `finally` block runs `self.clients.remove(c)`. -/
inductive Event where
  | connect (c : Conn)
  | msg (c : Conn) (m : String) (o f : Conn → Bool)
  | disconnect (c : Conn) (r : Reason)

/-- The transition function of the server, one event at a time.  The only
error path is the `KeyError` of `set_remove` (never taken on well-formed
traces). -/
def step (st : ServerState) : Event → Except Unit ServerState
  | Event.connect c =>
    Except.ok { st with clients := set_add st.clients c, regLog := st.regLog ++ [c] }
  | Event.msg c m o f =>
    let r := broadcastLoop o f c m st.clients
    if r.2 then
      match set_remove st.clients c with
      | Except.ok cl =>
        Except.ok { st with clients := cl, log := st.log ++ r.1,
                            deregLog := st.deregLog ++ [c] }
      | Except.error u => Except.error u
    else Except.ok { st with log := st.log ++ r.1 }
  | Event.disconnect c _ =>
    match set_remove st.clients c with
    | Except.ok cl =>
      Except.ok { st with clients := cl, deregLog := st.deregLog ++ [c] }
    | Except.error u => Except.error u

/-- Run a whole trace of events. -/
def runTrace (st : ServerState) : List Event → Except Unit ServerState
  | [] => Except.ok st
  | e :: t =>
    match step st e with
    | Except.ok st' => runTrace st' t
    | Except.error u => Except.error u

/-- Which events can actually occur in a given state: a handler only
processes messages and terminates between its registration and its
deregistration, and connection objects are never reused (a fresh accept
yields a fresh `WebSocketServerProtocol`), so a `connect` only ever brings
a never-before-seen connection. -/
def enabled (st : ServerState) : Event → Bool
  | Event.connect c => decide (c ∉ st.regLog)
  | Event.msg c _ _ _ => decide (c ∈ st.clients)
  | Event.disconnect c _ => decide (c ∈ st.clients)

/-- A trace is well-formed from `st` when every event is enabled in the
state reached at its position. -/
def wfRun (st : ServerState) : List Event → Bool
  | [] => true
  | e :: t =>
    enabled st e &&
      match step st e with
      | Except.ok st' => wfRun st' t
      | Except.error _ => false

/-- The registry bookkeeping invariant tying `self.clients` to the ghost
logs: the clients set is duplicate-free and holds exactly the connections
that have registered and not yet deregistered; no connection registers or
deregisters twice. -/
def RegInv (st : ServerState) : Prop :=
  st.clients.Nodup ∧ st.regLog.Nodup ∧ st.deregLog.Nodup ∧
  (∀ c : Conn, c ∈ st.clients ↔ c ∈ st.regLog ∧ c ∉ st.deregLog) ∧
  (∀ c : Conn, c ∈ st.deregLog → c ∈ st.regLog)

/-! ## Basic lemmas about the sequential fan-out loop -/

/-- Unfolding `deliveredTo` over a cons. -/
theorem deliveredTo_cons (c : Conn) (p : String) (ds : List (Conn × String)) (x : Conn) :
    deliveredTo ((c, p) :: ds) x =
      if c = x then p :: deliveredTo ds x else deliveredTo ds x := by
  by_cases h : c = x <;> simp [deliveredTo, List.filter_cons, h]

/-- Every delivery recorded by the fan-out loop goes to a member of the
enumerated list. -/
theorem broadcastLoop_deliveries_mem (o f : Conn → Bool) (sender : Conn) (msg : String)
    (cs : List Conn) :
    ∀ p ∈ (broadcastLoop o f sender msg cs).1, p.1 ∈ cs := by
  induction cs with
  | nil => simp [broadcastLoop]
  | cons c rest ih =>
    intro p hp
    by_cases ho : o c
    · by_cases hf : f c
      · simp [broadcastLoop, ho, hf] at hp
      · simp only [broadcastLoop, ho, hf, if_true, if_false, Bool.false_eq_true,
          List.mem_cons] at hp
        rcases hp with h | h
        · rw [h]; exact List.mem_cons_self _ _
        · exact List.mem_cons_of_mem _ (ih p h)
    · simp only [broadcastLoop, ho, if_false, Bool.false_eq_true] at hp
      exact List.mem_cons_of_mem _ (ih p hp)

/-- A connection that is not in the enumerated list receives nothing. -/
theorem deliveredTo_eq_nil_of_not_mem (o f : Conn → Bool) (sender : Conn) (msg : String)
    (cs : List Conn) (x : Conn) (hx : x ∉ cs) :
    deliveredTo (broadcastLoop o f sender msg cs).1 x = [] := by
  have h : ∀ p ∈ (broadcastLoop o f sender msg cs).1, ¬(decide (p.1 = x) = true) := by
    intro p hp hdec
    exact hx (by
      have := broadcastLoop_deliveries_mem o f sender msg cs p hp
      rwa [of_decide_eq_true hdec] at this)
  simp only [deliveredTo]
  rw [List.filter_eq_nil_iff.mpr h]
  rfl

/-- When every send to an open connection succeeds, the fan-out loop runs to
completion (no exception escapes) and delivers exactly one payload to each
open member of the enumerated (duplicate-free) list: the echo-framed
message to the sender, the plain message to everyone else, and nothing to
anyone else. -/
theorem broadcastLoop_ok_deliveries (o f : Conn → Bool) (sender : Conn) (msg : String)
    (cs : List Conn) (hnd : cs.Nodup) (hok : ∀ d ∈ cs, o d = true → f d = false) :
    (broadcastLoop o f sender msg cs).2 = false ∧
    ∀ x : Conn, deliveredTo (broadcastLoop o f sender msg cs).1 x =
      if x ∈ cs ∧ o x = true then [if x = sender then "You: " ++ msg else msg]
      else [] := by
  induction cs with
  | nil => simp [broadcastLoop, deliveredTo]
  | cons c rest ih =>
    obtain ⟨hc, hrest⟩ := List.nodup_cons.mp hnd
    obtain ⟨ih1, ih2⟩ := ih hrest (fun d hd => hok d (List.mem_cons_of_mem _ hd))
    by_cases ho : o c
    · have hf : f c = false := hok c (List.mem_cons_self _ _) ho
      refine ⟨by simp [broadcastLoop, ho, hf, ih1], ?_⟩
      intro x
      by_cases hxc : x = c
      · subst hxc
        have hdx : deliveredTo (broadcastLoop o f sender msg rest).1 x = [] := by
          rw [ih2 x]
          simp [hc]
        simp [broadcastLoop, ho, hf, deliveredTo_cons, hdx]
      · have hne : ¬(c = x) := fun h => hxc h.symm
        simp only [broadcastLoop, ho, hf, if_true, if_false, Bool.false_eq_true,
          deliveredTo_cons, hne]
        rw [ih2 x]
        simp [List.mem_cons, hxc]
    · have ho' : o c = false := by simpa using ho
      refine ⟨by simp [broadcastLoop, ho, ih1], ?_⟩
      intro x
      simp only [broadcastLoop, ho, if_false, Bool.false_eq_true]
      rw [ih2 x]
      by_cases hxc : x = c
      · subst hxc
        simp [hc, ho']
      · simp [List.mem_cons, hxc]

/-- If the fan-out enumeration reaches an open connection whose send
raises, the exception escapes: the loop result is the deliveries of the
prefix before that connection, with the raised flag set, and nothing after
it is attempted. -/
theorem broadcastLoop_fail_prefix (o f : Conn → Bool) (sender : Conn) (msg : String)
    (c : Conn) (post : List Conn) (hoc : o c = true) (hfc : f c = true) :
    ∀ pre : List Conn, (∀ d ∈ pre, o d = true → f d = false) →
      broadcastLoop o f sender msg (pre ++ c :: post) =
        ((broadcastLoop o f sender msg pre).1, true) := by
  intro pre
  induction pre with
  | nil => intro _; simp [broadcastLoop, hoc, hfc]
  | cons d pre ih =>
    intro h
    have htail : ∀ e ∈ pre, o e = true → f e = false :=
      fun e he => h e (List.mem_cons_of_mem _ he)
    by_cases hod : o d
    · have hfd : f d = false := h d (List.mem_cons_self _ _) hod
      simp [broadcastLoop, hod, hfd, ih htail]
    · simp [broadcastLoop, hod, ih htail]

/-! ## Lemmas about the interleaved fan-out and the trace machine -/

/-- The fan-out loop itself never mutates the registry: if no concurrent
operation is scheduled during its awaits, the live set when the loop ends —
normally or aborted by an exception — is the live set it started from. -/
theorem fanoutSteps_hub_const (o f : Conn → Bool) (sender : Conn) (msg : String)
    (iterSize : Nat) :
    ∀ (remaining : List Conn) (h : Hub) (sched : List (List ConcOp)),
      (∀ s ∈ sched, s = []) →
      (fanoutSteps o f sender msg iterSize remaining h sched).1 = h := by
  intro remaining
  induction remaining with
  | nil =>
    intro h sched _
    by_cases hl : h.length = iterSize <;> simp [fanoutSteps, hl]
  | cons c rest ih =>
    intro h sched hs
    have hhead : sched.head?.getD [] = [] := by
      cases sched with
      | nil => rfl
      | cons s t => exact hs s (List.mem_cons_self _ _)
    have htail : ∀ s ∈ sched.tail, s = [] := by
      cases sched with
      | nil => intro s hs'; cases hs'
      | cons a t => intro s hs'; exact hs s (List.mem_cons_of_mem _ hs')
    by_cases hl : h.length = iterSize
    · by_cases ho : o c
      · by_cases hf : f c
        · simp [fanoutSteps, hl, ho, hf, hhead]
        · simp [fanoutSteps, hl, ho, hf, hhead, ih h sched.tail htail]
      · simp [fanoutSteps, hl, ho, ih h sched hs]
    · simp [fanoutSteps, hl]

/-- Every enabled event makes a successful transition that preserves the
registry invariant. -/
theorem step_preserves_inv (st : ServerState) (e : Event) (hI : RegInv st)
    (he : enabled st e = true) :
    ∃ st', step st e = Except.ok st' ∧ RegInv st' := by
  obtain ⟨hnc, hnr, hnd, hiff, hsub⟩ := hI
  cases e with
  | connect c =>
    have hcr : c ∉ st.regLog := of_decide_eq_true he
    have hcc : c ∉ st.clients := fun h => hcr ((hiff c).mp h).1
    have hcd : c ∉ st.deregLog := fun h => hcr (hsub c h)
    refine ⟨_, rfl, ?_, ?_, hnd, ?_, ?_⟩
    · simp only [set_add, hcc, if_neg, ite_false]
      simp [List.nodup_append, hnc, hcc]
    · simp [List.nodup_append, hnr, hcr]
    · intro x
      simp only [set_add, hcc, ite_false]
      simp only [List.mem_append, List.mem_singleton]
      by_cases hxc : x = c
      · subst hxc; simp [hcd]
      · simp only [hxc, or_false]
        exact hiff x
    · intro x hx
      exact List.mem_append_left _ (hsub x hx)
  | disconnect c r =>
    have hcc : c ∈ st.clients := of_decide_eq_true he
    have h1 : c ∈ st.regLog := ((hiff c).mp hcc).1
    have h2 : c ∉ st.deregLog := ((hiff c).mp hcc).2
    refine ⟨{ st with
              clients := st.clients.erase c,
              deregLog := st.deregLog ++ [c] },
      by simp [step, set_remove, hcc], ?_, hnr, ?_, ?_, ?_⟩
    · exact hnc.erase c
    · simp [List.nodup_append, hnd, h2]
    · intro x
      rw [hnc.mem_erase_iff]
      simp only [List.mem_append, List.mem_singleton]
      rw [hiff x]
      constructor
      · rintro ⟨hxc, hxr, hxd⟩
        exact ⟨hxr, by simp [hxd, hxc]⟩
      · rintro ⟨hxr, hxd⟩
        refine ⟨fun hxc => hxd (Or.inr hxc), hxr, fun hmem => hxd (Or.inl hmem)⟩
    · intro x hx
      rcases List.mem_append.mp hx with h | h
      · exact hsub x h
      · rw [List.mem_singleton.mp h]; exact h1
  | msg c m o f =>
    have hcc : c ∈ st.clients := of_decide_eq_true he
    have h1 : c ∈ st.regLog := ((hiff c).mp hcc).1
    have h2 : c ∉ st.deregLog := ((hiff c).mp hcc).2
    by_cases hr : (broadcastLoop o f c m st.clients).2
    · refine ⟨{ st with
                clients := st.clients.erase c,
                log := st.log ++ (broadcastLoop o f c m st.clients).1,
                deregLog := st.deregLog ++ [c] },
        by simp [step, hr, set_remove, hcc], ?_, hnr, ?_, ?_, ?_⟩
      · exact hnc.erase c
      · simp [List.nodup_append, hnd, h2]
      · intro x
        rw [hnc.mem_erase_iff]
        simp only [List.mem_append, List.mem_singleton]
        rw [hiff x]
        constructor
        · rintro ⟨hxc, hxr, hxd⟩
          exact ⟨hxr, by simp [hxd, hxc]⟩
        · rintro ⟨hxr, hxd⟩
          refine ⟨fun hxc => hxd (Or.inr hxc), hxr, fun hmem => hxd (Or.inl hmem)⟩
      · intro x hx
        rcases List.mem_append.mp hx with h | h
        · exact hsub x h
        · rw [List.mem_singleton.mp h]; exact h1
    · exact ⟨{ st with log := st.log ++ (broadcastLoop o f c m st.clients).1 },
        by simp [step, hr], hnc, hnr, hnd, hiff, hsub⟩

/-- Any well-formed trace runs to completion (no `KeyError`) and preserves
the registry invariant. -/
theorem runTrace_inv :
    ∀ (t : List Event) (st : ServerState), RegInv st → wfRun st t = true →
      ∃ st', runTrace st t = Except.ok st' ∧ RegInv st' := by
  intro t
  induction t with
  | nil => intro st hI _; exact ⟨st, rfl, hI⟩
  | cons e t ih =>
    intro st hI hwf
    rw [wfRun, Bool.and_eq_true] at hwf
    obtain ⟨st', hstep, hI'⟩ := step_preserves_inv st e hI hwf.1
    have hwf' : wfRun st' t = true := by
      have := hwf.2
      rwa [hstep] at this
    obtain ⟨st'', hrun, hI''⟩ := ih st' hI' hwf'
    exact ⟨st'', by rw [runTrace, hstep]; exact hrun, hI''⟩

/-! ## The claims -/

/-- Claim C1, counterexample.  Sender `⟨0⟩` broadcasts `"hi"` to the
registry `[⟨0⟩, ⟨1⟩, ⟨2⟩]`, every connection open; the send to `⟨1⟩`
raises `ConnectionClosed`.  The claim says delivery is still attempted to
every connection enumerated after `⟨1⟩`; in fact the exception escapes the
loop (`true` flag), only the delivery to `⟨0⟩` (made before the failure)
exists, and `⟨2⟩` — enumerated after `⟨1⟩` — receives nothing. -/
theorem claim_C1_cex :
    broadcastLoop (fun _ => true) (fun x => decide (x = ⟨1⟩)) ⟨0⟩ "hi"
        [⟨0⟩, ⟨1⟩, ⟨2⟩] = ([(⟨0⟩, "You: hi")], true) ∧
    deliveredTo (broadcastLoop (fun _ => true) (fun x => decide (x = ⟨1⟩)) ⟨0⟩ "hi"
        [⟨0⟩, ⟨1⟩, ⟨2⟩]).1 ⟨2⟩ = [] :=
  ⟨rfl, rfl⟩

/-- Claim C1, amended: the fan-out loop has no per-recipient exception
handling, so when the enumeration reaches an open connection `c` whose
send raises (all open connections before it having sent successfully), the
exception aborts the fan-out: the loop result records the escape, exactly
the deliveries of the prefix before `c` were made, and every connection
enumerated after `c` (and not already served in the prefix) receives
nothing. -/
theorem claim_C1 (o f : Conn → Bool) (sender : Conn) (msg : String)
    (pre post : List Conn) (c : Conn)
    (hpre : ∀ d ∈ pre, o d = true → f d = false)
    (hoc : o c = true) (hfc : f c = true) :
    (broadcastLoop o f sender msg (pre ++ c :: post)).2 = true ∧
    (broadcastLoop o f sender msg (pre ++ c :: post)).1 =
      (broadcastLoop o f sender msg pre).1 ∧
    ∀ d ∈ post, d ∉ pre →
      deliveredTo (broadcastLoop o f sender msg (pre ++ c :: post)).1 d = [] := by
  have h := broadcastLoop_fail_prefix o f sender msg c post hoc hfc pre hpre
  refine ⟨by rw [h], by rw [h], ?_⟩
  intro d _ hdpre
  rw [h]
  exact deliveredTo_eq_nil_of_not_mem o f sender msg pre d hdpre

/-- Claim C1, witness for the amended statement: prefix `[⟨0⟩]`, failing
connection `⟨1⟩`, suffix `[⟨2⟩]`. -/
theorem claim_C1_witness :
    (broadcastLoop (fun _ => true) (fun x => decide (x = ⟨1⟩)) ⟨3⟩ "hey"
        ([⟨0⟩] ++ ⟨1⟩ :: [⟨2⟩])).2 = true ∧
    (broadcastLoop (fun _ => true) (fun x => decide (x = ⟨1⟩)) ⟨3⟩ "hey"
        ([⟨0⟩] ++ ⟨1⟩ :: [⟨2⟩])).1 =
      (broadcastLoop (fun _ => true) (fun x => decide (x = ⟨1⟩)) ⟨3⟩ "hey" [⟨0⟩]).1 ∧
    ∀ d ∈ ([⟨2⟩] : List Conn), d ∉ ([⟨0⟩] : List Conn) →
      deliveredTo (broadcastLoop (fun _ => true) (fun x => decide (x = ⟨1⟩)) ⟨3⟩ "hey"
        ([⟨0⟩] ++ ⟨1⟩ :: [⟨2⟩])).1 d = [] :=
  claim_C1 (fun _ => true) (fun x => decide (x = ⟨1⟩)) ⟨3⟩ "hey" [⟨0⟩] [⟨2⟩] ⟨1⟩
    (by decide) (by decide) (by decide)

/-- Claim C2: every well-formed sequence of connect, send and disconnect
operations runs without a registry error, and afterwards the membership of
`self.clients` is exactly the set of connections that registered and have
not yet deregistered, with no duplicates; the deregistration log is itself
duplicate-free (the `finally` block runs exactly once per connection, also
when its receive loop ends with an error — `disconnect` with
`Reason.error`, or a send failure inside its own fan-out). -/
theorem claim_C2 (t : List Event) (hwf : wfRun initState t = true) :
    ∃ st', runTrace initState t = Except.ok st' ∧
      (∀ c : Conn, c ∈ st'.clients ↔ c ∈ st'.regLog ∧ c ∉ st'.deregLog) ∧
      st'.clients.Nodup ∧ st'.deregLog.Nodup := by
  have hI : RegInv initState :=
    ⟨List.nodup_nil, List.nodup_nil, List.nodup_nil,
      by intro c; simp [initState], by intro c h; simp [initState] at h⟩
  obtain ⟨st', hrun, hI'⟩ := runTrace_inv t initState hI hwf
  exact ⟨st', hrun, hI'.2.2.2.1, hI'.1, hI'.2.2.1⟩

/-- Claim C2, witness: three connections join; `⟨0⟩` broadcasts; `⟨1⟩`
disconnects with an error; then a broadcast from `⟨0⟩` hits a send failure
on `⟨2⟩`, which terminates the lifecycle of the sender `⟨0⟩` itself. -/
theorem claim_C2_witness :
    wfRun initState
      [Event.connect ⟨0⟩, Event.connect ⟨1⟩, Event.connect ⟨2⟩,
       Event.msg ⟨0⟩ "hi" (fun _ => true) (fun _ => false),
       Event.disconnect ⟨1⟩ Reason.error,
       Event.msg ⟨0⟩ "bye" (fun _ => true) (fun x => decide (x = ⟨2⟩))] = true ∧
    ∃ st', runTrace initState
      [Event.connect ⟨0⟩, Event.connect ⟨1⟩, Event.connect ⟨2⟩,
       Event.msg ⟨0⟩ "hi" (fun _ => true) (fun _ => false),
       Event.disconnect ⟨1⟩ Reason.error,
       Event.msg ⟨0⟩ "bye" (fun _ => true) (fun x => decide (x = ⟨2⟩))] =
        Except.ok st' ∧
      (∀ c : Conn, c ∈ st'.clients ↔ c ∈ st'.regLog ∧ c ∉ st'.deregLog) ∧
      st'.clients.Nodup ∧ st'.deregLog.Nodup :=
  ⟨by decide, claim_C2 _ (by decide)⟩

/-- Claim C3: a message `msg` broadcast from an open registered sender
`a`, with other distinct open registered connections `b` and `c`, and no
send failing: `b` and `c` each receive exactly `msg` unmodified, `a`
receives exactly `"You: " ++ msg`, and no connection outside the registry
receives anything. -/
theorem claim_C3 (o f : Conn → Bool) (a b c : Conn) (msg : String) (cs : List Conn)
    (hnd : cs.Nodup) (hok : ∀ d ∈ cs, o d = true → f d = false)
    (ha : a ∈ cs) (hb : b ∈ cs) (hc : c ∈ cs)
    (hoa : o a = true) (hob : o b = true) (hoc : o c = true)
    (hba : b ≠ a) (hca : c ≠ a) :
    deliveredTo (broadcastLoop o f a msg cs).1 b = [msg] ∧
    deliveredTo (broadcastLoop o f a msg cs).1 c = [msg] ∧
    deliveredTo (broadcastLoop o f a msg cs).1 a = ["You: " ++ msg] ∧
    ∀ x : Conn, x ∉ cs → deliveredTo (broadcastLoop o f a msg cs).1 x = [] := by
  obtain ⟨h2, hdel⟩ := broadcastLoop_ok_deliveries o f a msg cs hnd hok
  refine ⟨?_, ?_, ?_, ?_⟩
  · rw [hdel b]; simp [hb, hob, hba]
  · rw [hdel c]; simp [hc, hoc, hca]
  · rw [hdel a]; simp [ha, hoa]
  · intro x hx; exact deliveredTo_eq_nil_of_not_mem o f a msg cs x hx

/-- Claim C3, witness: registry `[⟨0⟩, ⟨1⟩, ⟨2⟩]`, sender `⟨0⟩`. -/
theorem claim_C3_witness :
    deliveredTo (broadcastLoop (fun _ => true) (fun _ => false) ⟨0⟩ "hello"
        [⟨0⟩, ⟨1⟩, ⟨2⟩]).1 ⟨1⟩ = ["hello"] ∧
    deliveredTo (broadcastLoop (fun _ => true) (fun _ => false) ⟨0⟩ "hello"
        [⟨0⟩, ⟨1⟩, ⟨2⟩]).1 ⟨2⟩ = ["hello"] ∧
    deliveredTo (broadcastLoop (fun _ => true) (fun _ => false) ⟨0⟩ "hello"
        [⟨0⟩, ⟨1⟩, ⟨2⟩]).1 ⟨0⟩ = ["You: " ++ "hello"] ∧
    ∀ x : Conn, x ∉ ([⟨0⟩, ⟨1⟩, ⟨2⟩] : List Conn) →
      deliveredTo (broadcastLoop (fun _ => true) (fun _ => false) ⟨0⟩ "hello"
        [⟨0⟩, ⟨1⟩, ⟨2⟩]).1 x = [] :=
  claim_C3 (fun _ => true) (fun _ => false) ⟨0⟩ ⟨1⟩ ⟨2⟩ "hello" [⟨0⟩, ⟨1⟩, ⟨2⟩]
    (by decide) (by decide) (by decide) (by decide) (by decide)
    (by decide) (by decide) (by decide) (by decide) (by decide)

/-- Claim C4, counterexample.  The code iterates the live set
(`for client in self.clients`), not a snapshot.  Registry `[⟨0⟩, ⟨1⟩]`,
sender `⟨0⟩` broadcasting `"hi"`, all open, no send failure; while the
fan-out is suspended in `await send` to `⟨0⟩`, the handler of `⟨1⟩` runs
its `finally` and removes `⟨1⟩`.  The claim says the enumeration is safe
and uncorrupted under such concurrent deregistration; in fact the next
iterator advance raises `RuntimeError` and `⟨1⟩` — registered and open
when the iteration began — receives nothing. -/
theorem claim_C4_cex :
    fanoutRun (fun _ => true) (fun _ => false) ⟨0⟩ "hi" [⟨0⟩, ⟨1⟩]
      [[ConcOp.cdereg ⟨1⟩]] =
      ([⟨0⟩], [(⟨0⟩, "You: hi")], some PyErr.runtimeError) :=
  rfl

/-- Claim C4, amended: the fan-out iterates the live registry set rather
than a point-in-time snapshot, so the iteration is NOT safe under
concurrent mutation: whenever the registry operations interleaved during
the first `await send` change the size of the set (e.g. a concurrent
deregistration), the following iterator advance raises `RuntimeError`,
aborting the broadcast. -/
theorem claim_C4 (o f : Conn → Bool) (sender : Conn) (msg : String)
    (c : Conn) (rest : List Conn) (ops : List ConcOp) (sched : List (List ConcOp))
    (hoc : o c = true) (hfc : f c = false)
    (hmut : (ops.foldl applyOp (c :: rest)).length ≠ (c :: rest).length) :
    (fanoutRun o f sender msg (c :: rest) (ops :: sched)).2.2 =
      some PyErr.runtimeError := by
  show (fanoutSteps o f sender msg (c :: rest).length (c :: rest) (c :: rest)
      (ops :: sched)).2.2 = some PyErr.runtimeError
  cases rest with
  | nil =>
    have hm : List.length (List.foldl applyOp [c] ops) ≠ 1 := by simpa using hmut
    simp [fanoutSteps, hoc, hfc, hm]
  | cons d tl =>
    have hm : List.length (List.foldl applyOp (c :: d :: tl) ops) ≠ tl.length + 1 + 1 := by
      simpa using hmut
    simp [fanoutSteps, hoc, hfc, hm]

/-- Claim C4, witness for the amended statement: one concurrent
deregistration of `⟨2⟩` during the send to `⟨1⟩`. -/
theorem claim_C4_witness :
    (fanoutRun (fun _ => true) (fun _ => false) ⟨1⟩ "yo" ([⟨1⟩, ⟨2⟩, ⟨3⟩])
      ([ConcOp.cdereg ⟨2⟩] :: [])).2.2 = some PyErr.runtimeError :=
  claim_C4 (fun _ => true) (fun _ => false) ⟨1⟩ "yo" ⟨1⟩ [⟨2⟩, ⟨3⟩]
    [ConcOp.cdereg ⟨2⟩] [] (by decide) (by decide) (by decide)

/-- Claim C5, counterexample.  The handler deregisters with
`self.clients.remove(websocket)`; Python `set.remove` raises `KeyError`
when the element is absent, so deregistering a connection not present in
the registry is NOT a no-op: here, removing `⟨0⟩` from the empty registry
raises. -/
theorem claim_C5_cex : set_remove [] ⟨0⟩ = Except.error () :=
  rfl

/-- Claim C5, amended: for every registry state and every connection `c`
not present in it, the deregistration primitive the code uses
(`set.remove`) raises `KeyError` instead of being a silent no-op.  (In the
normal handler flow this is unreachable: `finally` removes exactly the
connection the same handler added.) -/
theorem claim_C5 (s : List Conn) (c : Conn) (hc : c ∉ s) :
    set_remove s c = Except.error () := by
  simp [set_remove, hc]

/-- Claim C5, witness for the amended statement. -/
theorem claim_C5_witness :
    (⟨5⟩ : Conn) ∉ ([⟨1⟩, ⟨2⟩] : List Conn) ∧
    set_remove [⟨1⟩, ⟨2⟩] ⟨5⟩ = Except.error () :=
  ⟨by decide, claim_C5 [⟨1⟩, ⟨2⟩] ⟨5⟩ (by decide)⟩

/-- Claim C6, counterexample.  The handler registers with
`self.clients.add(websocket)`; Python `set.add` is total and silently
ignores a duplicate, so registering an already-present connection does NOT
fail with `DuplicateRegistration` (no such error exists in the code): it
returns normally and leaves the registry unchanged. -/
theorem claim_C6_cex : set_add [⟨0⟩] ⟨0⟩ = [⟨0⟩] :=
  rfl

/-- Claim C6, amended: registering a connection already present in the
registry silently succeeds as a no-op — `set.add` has no error path and
the registry is unchanged. -/
theorem claim_C6 (s : List Conn) (c : Conn) (hc : c ∈ s) : set_add s c = s := by
  simp [set_add, hc]

/-- Claim C6, witness for the amended statement. -/
theorem claim_C6_witness :
    (⟨3⟩ : Conn) ∈ ([⟨3⟩, ⟨4⟩] : List Conn) ∧
    set_add [⟨3⟩, ⟨4⟩] ⟨3⟩ = [⟨3⟩, ⟨4⟩] :=
  ⟨by decide, claim_C6 [⟨3⟩, ⟨4⟩] ⟨3⟩ (by decide)⟩

/-- Claim C7: in a broadcast where no send to an open connection fails,
every registered connection whose open flag is false receives nothing (it
is skipped before any send — note the hypothesis allows `f x = true` on
closed connections, so a send to them WOULD fail had it been attempted,
yet no exception escapes), the broadcast completes without an exception,
and every open registered connection still gets its payload. -/
theorem claim_C7 (o f : Conn → Bool) (sender : Conn) (msg : String) (cs : List Conn)
    (hnd : cs.Nodup) (hok : ∀ d ∈ cs, o d = true → f d = false) :
    (broadcastLoop o f sender msg cs).2 = false ∧
    (∀ x : Conn, o x = false → deliveredTo (broadcastLoop o f sender msg cs).1 x = []) ∧
    (∀ x ∈ cs, o x = true →
      deliveredTo (broadcastLoop o f sender msg cs).1 x =
        [if x = sender then "You: " ++ msg else msg]) := by
  obtain ⟨h2, hdel⟩ := broadcastLoop_ok_deliveries o f sender msg cs hnd hok
  refine ⟨h2, ?_, ?_⟩
  · intro x hx
    rw [hdel x]
    simp [hx]
  · intro x hx hox
    rw [hdel x]
    simp [hx, hox]

/-- Claim C7, witness: `⟨1⟩` is registered but closed (and its send would
even raise, were it attempted); it receives nothing while `⟨0⟩` and `⟨2⟩`
are served. -/
theorem claim_C7_witness :
    (broadcastLoop (fun x => decide (x ≠ ⟨1⟩)) (fun x => decide (x = ⟨1⟩)) ⟨0⟩ "sup"
      [⟨0⟩, ⟨1⟩, ⟨2⟩]).2 = false ∧
    (∀ x : Conn, (fun x => decide (x ≠ (⟨1⟩ : Conn))) x = false →
      deliveredTo (broadcastLoop (fun x => decide (x ≠ ⟨1⟩)) (fun x => decide (x = ⟨1⟩))
        ⟨0⟩ "sup" [⟨0⟩, ⟨1⟩, ⟨2⟩]).1 x = []) ∧
    (∀ x ∈ ([⟨0⟩, ⟨1⟩, ⟨2⟩] : List Conn), (fun x => decide (x ≠ (⟨1⟩ : Conn))) x = true →
      deliveredTo (broadcastLoop (fun x => decide (x ≠ ⟨1⟩)) (fun x => decide (x = ⟨1⟩))
        ⟨0⟩ "sup" [⟨0⟩, ⟨1⟩, ⟨2⟩]).1 x =
          [if x = ⟨0⟩ then "You: " ++ "sup" else "sup"]) :=
  claim_C7 (fun x => decide (x ≠ ⟨1⟩)) (fun x => decide (x = ⟨1⟩)) ⟨0⟩ "sup"
    [⟨0⟩, ⟨1⟩, ⟨2⟩] (by decide) (by decide)

/-- Claim C8: a single fan-out call never mutates the registry.  In the
interleaved model, where the live set is threaded through the loop, if no
concurrent registry operation runs during the awaits of the loop then the
live set when the loop ends — normally, aborted by a send failure, or
aborted by the iterator check — is exactly the set it started from:
removal is performed only by each connection lifecycle, never by the
fan-out itself. -/
theorem claim_C8 (o f : Conn → Bool) (sender : Conn) (msg : String) (h : Hub)
    (sched : List (List ConcOp)) (hs : ∀ s ∈ sched, s = []) :
    (fanoutRun o f sender msg h sched).1 = h :=
  fanoutSteps_hub_const o f sender msg h.length h h sched hs

/-- Claim C8, witness: a fan-out whose send to `⟨1⟩` raises still leaves
the registry untouched. -/
theorem claim_C8_witness :
    (fanoutRun (fun _ => true) (fun x => decide (x = ⟨1⟩)) ⟨0⟩ "hi"
      [⟨0⟩, ⟨1⟩, ⟨2⟩] [[], []]).1 = [⟨0⟩, ⟨1⟩, ⟨2⟩] :=
  claim_C8 (fun _ => true) (fun x => decide (x = ⟨1⟩)) ⟨0⟩ "hi" [⟨0⟩, ⟨1⟩, ⟨2⟩]
    [[], []] (by simp)

/-- Claim C9: the empty message is relayed like any other: the broadcast
completes, every open non-sender recipient receives the empty string
unmodified, and the sender receives the echo prefix applied to the empty
payload, i.e. exactly `"You: "`. -/
theorem claim_C9 (o f : Conn → Bool) (a : Conn) (cs : List Conn)
    (hnd : cs.Nodup) (hok : ∀ d ∈ cs, o d = true → f d = false)
    (ha : a ∈ cs) (hoa : o a = true) :
    (broadcastLoop o f a "" cs).2 = false ∧
    deliveredTo (broadcastLoop o f a "" cs).1 a = ["You: "] ∧
    ∀ x ∈ cs, x ≠ a → o x = true →
      deliveredTo (broadcastLoop o f a "" cs).1 x = [""] := by
  obtain ⟨h2, hdel⟩ := broadcastLoop_ok_deliveries o f a "" cs hnd hok
  refine ⟨h2, ?_, ?_⟩
  · rw [hdel a]
    simp [ha, hoa]
  · intro x hx hxa hox
    rw [hdel x]
    simp [hx, hox, hxa]

/-- Claim C9, witness: registry `[⟨0⟩, ⟨1⟩]`, sender `⟨0⟩`, message `""`. -/
theorem claim_C9_witness :
    (broadcastLoop (fun _ => true) (fun _ => false) ⟨0⟩ "" [⟨0⟩, ⟨1⟩]).2 = false ∧
    deliveredTo (broadcastLoop (fun _ => true) (fun _ => false) ⟨0⟩ ""
      [⟨0⟩, ⟨1⟩]).1 ⟨0⟩ = ["You: "] ∧
    ∀ x ∈ ([⟨0⟩, ⟨1⟩] : List Conn), x ≠ ⟨0⟩ → (fun (_ : Conn) => true) x = true →
      deliveredTo (broadcastLoop (fun _ => true) (fun _ => false) ⟨0⟩ ""
        [⟨0⟩, ⟨1⟩]).1 x = [""] :=
  claim_C9 (fun _ => true) (fun _ => false) ⟨0⟩ [⟨0⟩, ⟨1⟩]
    (by decide) (by decide) (by decide) (by decide)

/-- Claim C10: if, while handling an inbound message of registered sender
`c`, the fan-out raises (some send hit a closed peer), then the handler of
`c` leaves its receive loop, the `except` swallows the exception, and the
`finally` deregisters `c` itself: after the step, `c` is no longer in the
registry — even though the open flag of `c` may still be true. -/
theorem claim_C10 (st : ServerState) (c : Conn) (m : String) (o f : Conn → Bool)
    (hnd : st.clients.Nodup) (hc : c ∈ st.clients)
    (hraise : (broadcastLoop o f c m st.clients).2 = true) :
    ∃ st', step st (Event.msg c m o f) = Except.ok st' ∧
      st'.clients = st.clients.erase c ∧ c ∉ st'.clients ∧
      st'.deregLog = st.deregLog ++ [c] := by
  refine ⟨{ st with
            clients := st.clients.erase c,
            log := st.log ++ (broadcastLoop o f c m st.clients).1,
            deregLog := st.deregLog ++ [c] },
    by simp [step, hraise, set_remove, hc], rfl, ?_, rfl⟩
  intro hmem
  exact ((hnd.mem_erase_iff).mp hmem).1 rfl

/-- Claim C10, witness: sender `⟨0⟩` is open and its own stream is live,
yet the failing send to `⟨1⟩` removes `⟨0⟩` from the registry. -/
theorem claim_C10_witness :
    ∃ st', step ⟨[⟨0⟩, ⟨1⟩], [], [⟨0⟩, ⟨1⟩], []⟩
        (Event.msg ⟨0⟩ "hi" (fun _ => true) (fun x => decide (x = ⟨1⟩))) =
        Except.ok st' ∧
      st'.clients = ([⟨0⟩, ⟨1⟩] : List Conn).erase ⟨0⟩ ∧
      (⟨0⟩ : Conn) ∉ st'.clients ∧
      st'.deregLog = ([] : List Conn) ++ [⟨0⟩] :=
  claim_C10 ⟨[⟨0⟩, ⟨1⟩], [], [⟨0⟩, ⟨1⟩], []⟩ ⟨0⟩ "hi"
    (fun _ => true) (fun x => decide (x = ⟨1⟩)) (by decide) (by decide) (by decide)

